import Mathlib

/-!
Verification development for the main-content SEO scraper.

The Python sources are embedded shallowly: pure functions become Lean
functions, the mutable document threaded through the transformation
pipeline becomes explicit state passing, exceptions become `Except`,
and external collaborators (BeautifulSoup parsing, html2text, lxml,
tiktoken, urljoin, the LLM selector oracle) become function parameters.
Python string operations are modelled over `List Char` so that every
definition evaluates by kernel reduction.
-/

/-! ## Python string operations (modelled over `List Char`) -/

/-- Python `str.strip()` with no argument: remove leading and trailing
whitespace. -/
def pyStrip (s : String) : String :=
  ⟨((s.data.dropWhile Char.isWhitespace).reverse.dropWhile Char.isWhitespace).reverse⟩

/-- Python `str.lstrip(chars)`: remove the maximal leading run of
characters that belong to the character set of `chars` (Python treats the
argument as a set of characters, not as a prefix string). -/
def pyLstrip (s chars : String) : String :=
  ⟨s.data.dropWhile (fun c => chars.data.contains c)⟩

/-- Python `str.startswith(p)`. -/
def pyStartswith (s p : String) : Bool :=
  p.data.isPrefixOf s.data

/-- Python `str.lower()` (ASCII case folding suffices for tag names). -/
def pyLower (s : String) : String :=
  ⟨s.data.map Char.toLower⟩

def pyReplaceAux (old new : List Char) : Nat → List Char → List Char
  | _, [] => []
  | 0, l => l
  | fuel + 1, c :: cs =>
    if old ≠ [] ∧ old.isPrefixOf (c :: cs) then
      new ++ pyReplaceAux old new fuel ((c :: cs).drop old.length)
    else
      c :: pyReplaceAux old new fuel cs

/-- Python `str.replace(old, new)`: replace every non-overlapping
occurrence of `old`, scanning left to right. -/
def pyReplace (s old new : String) : String :=
  ⟨pyReplaceAux old.data new.data s.data.length s.data⟩

/-- Python `sep.join(list)`. -/
def pyJoin (sep : String) : List String → String
  | [] => ""
  | [s] => s
  | s :: rest => s ++ sep ++ pyJoin sep rest

def hexDigit (n : Nat) : Char :=
  if n < 10 then Char.ofNat ('0'.toNat + n) else Char.ofNat ('a'.toNat + n - 10)

def jsonQuoteChar (c : Char) : List Char :=
  if c = '"' then ['\\', '"']
  else if c = '\\' then ['\\', '\\']
  else if c = '\n' then ['\\', 'n']
  else if c = '\t' then ['\\', 't']
  else if c = '\r' then ['\\', 'r']
  else if c.toNat = 8 then ['\\', 'b']
  else if c.toNat = 12 then ['\\', 'f']
  else if c.toNat < 32 then
    '\\' :: 'u' :: '0' :: '0' :: [hexDigit (c.toNat / 16), hexDigit (c.toNat % 16)]
  else [c]

/-- `json.dumps` of one string (with `ensure_ascii=False`, as the node
serializer uses it: non-ASCII characters pass through unescaped). -/
def jsonQuote (s : String) : String :=
  "\"" ++ ⟨(s.data.map jsonQuoteChar).flatten⟩ ++ "\""

/-- `json.dumps({"path": p, "text": t}, ensure_ascii=False)` with the
default separators. -/
def json_dumps_record (p t : String) : String :=
  "\x7b\"path\": " ++ jsonQuote p ++ ", \"text\": " ++ jsonQuote t ++ "\x7d"

/-- `json.dumps(l)` for a list of strings, with the default separators. -/
def json_dumps_str_list (l : List String) : String :=
  "[" ++ pyJoin ", " (l.map jsonQuote) ++ "]"

/-! ## The parse tree (BeautifulSoup's tree, at the granularity the code
touches: elements with attributes and children, text nodes, comments).
`HForest` is a bespoke list of nodes so that mutual structural recursion
(and hence kernel evaluation) is available. -/

mutual
inductive HNode where
  | element (name : String) (attrs : List (String × String)) (children : HForest)
  | text (s : String)
  | comment (s : String)
deriving DecidableEq
inductive HForest where
  | nil : HForest
  | cons (hd : HNode) (tl : HForest) : HForest
deriving DecidableEq
end

def HForest.ofList : List HNode → HForest
  | [] => .nil
  | n :: rest => .cons n (HForest.ofList rest)

/-- Attribute lookup, `tag.get(name)` / `tag[name]`. -/
def getAttr (name : String) : List (String × String) → Option String
  | [] => none
  | (k, v) :: rest => if k = name then some v else getAttr name rest

def serializeAttrs : List (String × String) → String
  | [] => ""
  | (k, v) :: rest => " " ++ k ++ "=\"" ++ v ++ "\"" ++ serializeAttrs rest

mutual
/-- Markup serialization of one node (`str(tag)` / `lxml.html.tostring`). -/
def serializeNode : HNode → String
  | .text s => s
  | .comment s => "<!--" ++ s ++ "-->"
  | .element n a ch => "<" ++ n ++ serializeAttrs a ++ ">" ++ serializeForest ch ++ "</" ++ n ++ ">"
termination_by structural n => n
def serializeForest : HForest → String
  | .nil => ""
  | .cons c cs => serializeNode c ++ serializeForest cs
termination_by structural f => f
end

/-- `soup.decode_contents()`: the serialized children of the node. -/
def decode_contents : HNode → String
  | .element _ _ ch => serializeForest ch
  | .text s => s
  | .comment s => s

mutual
/-- `soup.find(tag)`: first element named `tag` in pre-order. -/
def findTag (tag : String) : HNode → Option HNode
  | .element n a ch => if n = tag then some (.element n a ch) else findTagF tag ch
  | _ => none
termination_by structural n => n
def findTagF (tag : String) : HForest → Option HNode
  | .nil => none
  | .cons c cs =>
    match findTag tag c with
    | some r => some r
    | none => findTagF tag cs
termination_by structural f => f
end

mutual
/-- `soup.find(tag, attrs={attr: val})`: first element named `tag` whose
`attr` attribute equals `val`, in pre-order. -/
def findTagAttr (tag attr val : String) : HNode → Option HNode
  | .element n a ch =>
    if n = tag ∧ getAttr attr a = some val then some (.element n a ch)
    else findTagAttrF tag attr val ch
  | _ => none
termination_by structural n => n
def findTagAttrF (tag attr val : String) : HForest → Option HNode
  | .nil => none
  | .cons c cs =>
    match findTagAttr tag attr val c with
    | some r => some r
    | none => findTagAttrF tag attr val cs
termination_by structural f => f
end

mutual
/-- `soup.find_all("a", href=True)` followed by reading each `href`: the
`href` values of all anchor elements, in document (pre-order) order. -/
def findAllHrefs : HNode → List String
  | .element n a ch =>
    (if n = "a" then (getAttr "href" a).toList else []) ++ findAllHrefsF ch
  | _ => []
termination_by structural n => n
def findAllHrefsF : HForest → List String
  | .nil => []
  | .cons c cs => findAllHrefs c ++ findAllHrefsF cs
termination_by structural f => f
end

/-- The attribute list of a node (empty for strings and comments). -/
def HNode.attrsOf : HNode → List (String × String)
  | .element _ a _ => a
  | _ => []

/-- BeautifulSoup's `tag.string`: the contained string if the tag has a
single child that is a string (recursing through a single element child),
`None` otherwise. -/
def nodeString : HNode → Option String
  | .text s => some s
  | .comment s => some s
  | .element _ _ (.cons c .nil) => nodeString c
  | .element _ _ _ => none

/-! ## `src/utils/crawl_transformer_utils.py` -/

/-- `CrawlTransformerUtils.non_essential_tags` (note: the code lists
`img`, not `image`). -/
def non_essential_tags : List String :=
  ["script", "style", "meta", "link", "iframe", "svg",
   "noscript", "figure", "picture", "img", "source", "button",
   "input", "nav", "footer", "header", "aside"]

/-- `CrawlTransformers.exclude_non_main_tags` (the boilerplate catalog of
extra removal selectors). -/
def exclude_non_main_tags : List String :=
  ["header", "footer", "nav", "aside", ".header", ".top", ".navbar", "#header",
   ".footer", ".bottom", "#footer", ".sidebar", ".side", ".aside", "#sidebar",
   ".modal", ".popup", "#modal", ".overlay", ".ad", ".ads", ".advert", "#ad",
   ".lang-selector", ".language", "#language-selector", ".social", ".social-media",
   ".social-links", "#social", ".menu", ".navigation", "#nav", ".breadcrumbs",
   "#breadcrumbs", "#search-form", ".search", "#search", ".share", "#share",
   ".widget", "#widget", ".cookie", "#cookie"]

def isElementNamed (tag : String) : HNode → Bool
  | .element n _ _ => n = tag
  | _ => false

mutual
/-- One pass of `for element in soup.find_all(tag): element.decompose()`:
every element named `tag` is removed together with its subtree (the root
node itself is the soup object and is never removed). -/
def removeTag (tag : String) : HNode → HNode
  | .element n a ch => .element n a (removeTagF tag ch)
  | n => n
termination_by structural n => n
def removeTagF (tag : String) : HForest → HForest
  | .nil => .nil
  | .cons c cs =>
    if isElementNamed tag c then removeTagF tag cs
    else .cons (removeTag tag c) (removeTagF tag cs)
termination_by structural f => f
end

def removeTagsF (tags : List String) : HForest → HForest
  | .nil => .nil
  | .cons c cs =>
    match c with
    | .element n a ch =>
      if n ∈ tags then removeTagsF tags cs
      else .cons (.element n a (removeTagsF tags ch)) (removeTagsF tags cs)
    | other => .cons other (removeTagsF tags cs)

/-- Simultaneous removal of every element whose name is in `tags`
(together with its subtree).  Used to state what the sequential per-tag
removal loop of `remove_unwanted_elements` computes. -/
def removeTags (tags : List String) : HNode → HNode
  | .element n a ch => .element n a (removeTagsF tags ch)
  | n => n

/-- `CrawlTransformerUtils.remove_unwanted_elements`.  The CSS-selector
based removal (`soup.select(tag)` + `decompose`) used by the
main-content-only branch is an external collaborator (`selectRemove`);
tag-based `find_all` + `decompose` is `removeTag`. -/
def remove_unwanted_elements (selectRemove : String → HNode → HNode)
    (soup : HNode) (exclude_tags : List String) (only_main_content : Bool)
    (extra_removals : List String) : String :=
  let soup1 := (["script", "style", "noscript", "meta", "head"] ++ exclude_tags).foldl
    (fun t tag => removeTag tag t) soup
  let soup2 := if only_main_content then
      extra_removals.foldl (fun t sel => selectRemove sel t) soup1
    else soup1
  decode_contents soup2

/-- Add to the accumulated link list with Python `set` semantics: no
duplicate is ever kept. -/
def setAdd (links : List String) (u : String) : List String :=
  if u ∈ links then links else links ++ [u]

/-- The branch ladder of `extract_links` applied to one `href` value:
`none` means the link is dropped. -/
def resolveHref (urljoin : String → String → String) (base_url href : String) :
    Option String :=
  if pyStartswith href "http://" || pyStartswith href "https://" then some href
  else if pyStartswith href "/" then some (urljoin base_url href)
  else if !(pyStartswith href "#" || pyStartswith href "mailto:") then
    some (urljoin base_url href)
  else if pyStartswith href "mailto:" then some href
  else none

/-- `CrawlTransformerUtils.extract_links`.  `urllib.parse.urljoin` is an
external collaborator. -/
def extract_links (urljoin : String → String → String) (soup : HNode)
    (base_url : String) : List String :=
  (findAllHrefs soup).foldl
    (fun links href =>
      if pyStartswith href "http://" || pyStartswith href "https://" then
        setAdd links href
      else if pyStartswith href "/" then setAdd links (urljoin base_url href)
      else if !(pyStartswith href "#" || pyStartswith href "mailto:") then
        setAdd links (urljoin base_url href)
      else if pyStartswith href "mailto:" then setAdd links href
      else links)
    []

/-! ### The metadata dictionary.  Python dict with string keys whose
values may be `None`: an insertion-ordered association list. -/

def PyDict := List (String × Option String)
deriving DecidableEq

def dictGet (m : PyDict) (k : String) : Option (Option String) :=
  match m with
  | [] => none
  | (k', v) :: rest => if k' = k then some v else dictGet rest k

/-- `m[k] = v`: update in place when the key exists, append otherwise. -/
def dictSet (m : PyDict) (k : String) (v : Option String) : PyDict :=
  match m with
  | [] => [(k, v)]
  | (k', v') :: rest => if k' = k then (k', v) :: rest else (k', v') :: dictSet rest k v

/-- `{**a, **b}`: the keys of `a` in order, values overridden by `b`, new
keys of `b` appended. -/
def dictMerge (a b : PyDict) : PyDict :=
  b.foldl (fun m kv => dictSet m kv.1 kv.2) a

/-- `CrawlTransformerUtils.extract_metadata`. -/
def extract_metadata (soup : HNode) : PyDict :=
  let metadata : PyDict :=
    [("title", (findTag "title" soup).bind nodeString),
     ("description", (findTagAttr "meta" "name" "description" soup).bind (getAttr "content" ∘ HNode.attrsOf)),
     ("keywords", (findTagAttr "meta" "name" "keywords" soup).bind (getAttr "content" ∘ HNode.attrsOf)),
     ("language", (findTag "html" soup).bind (getAttr "lang" ∘ HNode.attrsOf))]
  ["og:title", "og:description", "og:url", "og:image"].foldl
    (fun md tag =>
      match findTagAttr "meta" "property" tag soup with
      | some m => dictSet md (pyReplace tag "og:" "") (getAttr "content" (HNode.attrsOf m))
      | none => md)
    metadata

mutual
/-- `CrawlTransformerUtils.node_to_jsonl`.  Text nodes with non-empty
stripped content emit one JSON record whose path is
`path_prefix.lstrip("/[document]")` (the Python character-set `lstrip`);
comments emit nothing; elements whose lowercased name is in `ne` are
skipped with their whole subtree; other elements extend the path with
`/name` and concatenate their children's lines. -/
def node_to_jsonl (ne : List String) (pp : String) : HNode → List String
  | .comment _ => []
  | .text s =>
    if pyStrip s ≠ "" then [json_dumps_record (pyLstrip pp "/[document]") (pyStrip s)]
    else []
  | .element n _ ch =>
    if pyLower n ∈ ne then []
    else node_to_jsonlF ne (if pp ≠ "" then pp ++ "/" ++ n else "/" ++ n) ch
termination_by structural n => n
def node_to_jsonlF (ne : List String) (pp : String) : HForest → List String
  | .nil => []
  | .cons c cs => node_to_jsonl ne pp c ++ node_to_jsonlF ne pp cs
termination_by structural f => f
end

mutual
/-- Specification-side collector for the node-tree serializer: the
`(ancestor-tag path, stripped text)` pairs of the non-comment text nodes
with non-empty stripped content, in pre-order, skipping elements whose
lowercased name is in `ne` together with their subtrees.  `node_to_jsonl`
is this collection rendered as JSON records with the leading
root-marker characters stripped from each path. -/
def collectTexts (ne : List String) (pp : String) : HNode → List (String × String)
  | .comment _ => []
  | .text s => if pyStrip s ≠ "" then [(pp, pyStrip s)] else []
  | .element n _ ch =>
    if pyLower n ∈ ne then []
    else collectTextsF ne (if pp ≠ "" then pp ++ "/" ++ n else "/" ++ n) ch
termination_by structural n => n
def collectTextsF (ne : List String) (pp : String) : HForest → List (String × String)
  | .nil => []
  | .cons c cs => collectTexts ne pp c ++ collectTextsF ne pp cs
termination_by structural f => f
end

/-! ## `src/transformers/crawl_transformers.py` -/

/-- The document dictionary threaded through the pipeline.  A field is
`none` when its key is absent from the Python dict. -/
structure Doc where
  rawHtml : Option String := none
  html : Option String := none
  full_markdown : Option String := none
  metadata : PyDict := []
  node_tree : Option (List String) := none
  mc_path : Option String := none
  mc_html : Option String := none
  mc_markdown : Option String := none
  mc_links : Option (List String) := none
deriving DecidableEq

/-- The `meta["options"]` values the pipeline reads. -/
structure MetaOpts where
  excludeTags : List String := []
  onlyMainContent : Bool := false
deriving DecidableEq

/-- One registered transformer: its `__name__` and its body, which
receives the freshly parsed soup and the document and may raise. -/
structure Stage where
  name : String
  run : HNode → Doc → Except String Doc

/-- `CrawlTransformers.execute_transformers`.  For each registered stage:
`document["html"] = document["rawHtml"]` (a `KeyError` on a missing key
propagates and aborts the run), then inside `try`: the raw markup is
checked non-empty (else `ValueError`), re-parsed (`parse` stands for
`BeautifulSoup(document["html"], "html.parser")`) and the stage is run;
any error is logged (`Error in transformer {name}: {e}`) and the loop
continues with the document unchanged.  Returns the final document and
the chronological error log. -/
def executeTransformers (parse : String → HNode) :
    List Stage → Doc → Except String (Doc × List String)
  | [], doc => .ok (doc, [])
  | s :: rest, doc =>
    match doc.rawHtml with
    | none => .error "KeyError: rawHtml"
    | some raw =>
      let doc' : Doc := { doc with html := some raw }
      let attempt : Except String Doc :=
        if raw = "" then
          .error "rawHtml is undefined or empty. Transformation cannot proceed."
        else s.run (parse raw) doc'
      match attempt with
      | .ok doc'' => executeTransformers parse rest doc''
      | .error e =>
        match executeTransformers parse rest doc' with
        | .ok (d, logs) =>
          .ok (d, ("Error in transformer " ++ s.name ++ ": " ++ e) :: logs)
        | .error e2 => .error e2

/-- `CrawlTransformers._derive_html_from_raw_html`. -/
def derive_html_from_raw_html (selectRemove : String → HNode → HNode)
    (opts : MetaOpts) : Stage :=
  ⟨"_derive_html_from_raw_html", fun soup doc =>
    .ok { doc with
      html := some (remove_unwanted_elements selectRemove soup
        opts.excludeTags opts.onlyMainContent exclude_non_main_tags) }⟩

/-- `CrawlTransformers._derive_markdown_from_html`: runs `html2text`
(collaborator `h2md`) over the `html` string field, not over the soup. -/
def derive_markdown_from_html (h2md : String → String) : Stage :=
  ⟨"_derive_markdown_from_html", fun _ doc =>
    match doc.html with
    | some h => .ok { doc with full_markdown := some (h2md h) }
    | none => .error "KeyError: html"⟩

/-- `CrawlTransformers._derive_metadata_from_html`. -/
def derive_metadata_from_html : Stage :=
  ⟨"_derive_metadata_from_html", fun soup doc =>
    .ok { doc with metadata := dictMerge (extract_metadata soup) doc.metadata }⟩

/-- `CrawlTransformers._derive_node_tree`. -/
def derive_node_tree : Stage :=
  ⟨"_derive_node_tree", fun soup doc =>
    .ok { doc with node_tree := some (node_to_jsonl non_essential_tags "" soup) }⟩

/-- The registered transformer list of `CrawlTransformers.__init__`. -/
def crawl_transformers_stages (selectRemove : String → HNode → HNode)
    (h2md : String → String) (opts : MetaOpts) : List Stage :=
  [derive_html_from_raw_html selectRemove opts,
   derive_markdown_from_html h2md,
   derive_metadata_from_html,
   derive_node_tree]

/-! ## `src/transformers/crawl_transformers_main_content.py` -/

/-- `max_tokens = max_tokens or self.max_tokens` with
`self.max_tokens = 60000`: `None` and `0` are falsy in Python, so both
fall back to the default. -/
def effBudget : Option Nat → Nat
  | none => 60000
  | some 0 => 60000
  | some n => n

/-- The `while True` loop of `_trim_node_tree`, expressed as structural
recursion over the reversed remaining list (`node_tree.pop()` removes the
last record, i.e. the head of the reversed list).  `dumps` stands for
`json.dumps`, `tok` for `len(encoding.encode(...))` of the `cl100k_base`
tiktoken encoding.  Returns the serialized string and the remaining
(in-place trimmed) list. -/
def trimLoop (dumps : List String → String) (tok : String → Nat) (B : Nat) :
    List String → Except String (String × List String)
  | [] =>
    if tok (dumps []) ≤ B then .ok (dumps [], [])
    else .error "Node tree is empty. Cannot trim further."
  | x :: rest =>
    if tok (dumps (x :: rest).reverse) ≤ B then
      .ok (dumps (x :: rest).reverse, (x :: rest).reverse)
    else trimLoop dumps tok B rest

/-- `CrawlTransformersMainContent._trim_node_tree`. -/
def trim_node_tree (dumps : List String → String) (tok : String → Nat)
    (node_tree : List String) (max_tokens : Option Nat) :
    Except String (String × List String) :=
  trimLoop dumps tok (effBudget max_tokens) node_tree.reverse

/-- `CrawlTransformersMainContent._clean_result_path`. -/
def clean_result_path (result : String) : String :=
  pyStrip (pyReplace result "```" "")

/-- `CrawlTransformersMainContent._get_main_content_html`.
`lxml.html.fromstring` and `tree.xpath` are external collaborators (an
error from either is wrapped as a selection failure); the matched nodes'
markup is concatenated with `"".join` over `lxml.html.tostring`. -/
def get_main_content_html {Tree Node : Type}
    (fromstring : String → Except String Tree)
    (xpath : Tree → String → Except String (List Node))
    (tostring : Node → String)
    (full_html main_content_selector : String) : Except String String :=
  match (fromstring full_html).bind (fun t => xpath t main_content_selector) with
  | .error e => .error ("Failed to select main content nodes: " ++ e)
  | .ok [] => .error "Main content nodes not found in the HTML."
  | .ok nodes => .ok (pyJoin "" (nodes.map tostring))

/-- `CrawlTransformersMainContent.extract_main_content`.  The LLM chain is
the collaborator `oracle` (returning `result.content`); missing `html` or
`node_tree` keys raise `KeyError`.  `node_tree.pop()` mutates the list the
document's `node_tree` key aliases, so the document is updated with the
trimmed list as soon as trimming succeeds.  Every error is re-raised as
`Failed to extract main content: {e}`. -/
def extract_main_content {Tree Node : Type}
    (dumps : List String → String) (tok : String → Nat)
    (oracle : String → Except String String)
    (fromstring : String → Except String Tree)
    (xpath : Tree → String → Except String (List Node))
    (tostring : Node → String)
    (h2md : String → String) (parse : String → HNode)
    (urljoin : String → String → String)
    (url : String) (cleaned_data_obj : Doc) : Except String Doc :=
  let body : Except String Doc :=
    match cleaned_data_obj.html with
    | none => .error "KeyError: html"
    | some full_html =>
      match cleaned_data_obj.node_tree with
      | none => .error "KeyError: node_tree"
      | some node_tree =>
        match trim_node_tree dumps tok node_tree none with
        | .error e => .error e
        | .ok (trimmed_json_string, node_tree') =>
          let obj : Doc := { cleaned_data_obj with node_tree := some node_tree' }
          match oracle trimmed_json_string with
          | .error e => .error e
          | .ok content =>
            let cleaned_result := clean_result_path (pyStrip content)
            match get_main_content_html fromstring xpath tostring
                full_html cleaned_result with
            | .error e => .error e
            | .ok main_content_html =>
              .ok { obj with
                mc_path := some cleaned_result,
                mc_html := some main_content_html,
                mc_markdown := some (h2md main_content_html),
                mc_links := some (extract_links urljoin (parse main_content_html) url) }
  match body with
  | .error e => .error ("Failed to extract main content: " ++ e)
  | .ok v => .ok v

/-! ## `src/core/mc_scraper_service.py` -/

/-- What the scraping collaborator returned for a URL. -/
structure FetchedData where
  html : String
  status_code : Nat
deriving DecidableEq

/-- The per-document result contract: success shape or `{url, error}`. -/
inductive FetchResult where
  | success (url main_content_html main_content_markdown : String)
      (links : List String)
  | failure (url error : String)
deriving DecidableEq

/-- `MCScraperService.fetch_main_content`, with the already-fetched data,
the transformation pipeline and the main-content extractor as parameters.
An empty fetched markup or a non-200 status is rejected before the
pipeline runs; any exception escaping the body is converted to the
`{url, error}` shape. -/
def fetch_main_content (pipeline : Doc → Except String (Doc × List String))
    (extractor : String → Doc → Except String Doc)
    (url : String) (fetched_data : FetchedData) : FetchResult :=
  if fetched_data.html = "" ∨ fetched_data.status_code ≠ 200 then
    .failure url "Failed to fetch content or bad status code"
  else
    match pipeline { rawHtml := some fetched_data.html, metadata := [] } with
    | .error e => .failure url ("Error fetching main content: " ++ e)
    | .ok (cleaned_document, _) =>
      match extractor url cleaned_document with
      | .error e => .failure url ("Error fetching main content: " ++ e)
      | .ok mc =>
        match mc.mc_html, mc.mc_markdown, mc.mc_links with
        | some h, some m, some l => .success url h m l
        | _, _, _ => .failure url "Error fetching main content: KeyError"

/-! ## Concrete fixtures used by witnesses and counterexamples -/

/-- Identity stand-in for the CSS-selector removal collaborator. -/
def idSelect : String → HNode → HNode := fun _ t => t

/-- A markdown-converter stand-in that tags its input, so theorems can
observe which markup string it received. -/
def mdTag : String → String := fun s => "MD:" ++ s

/-- Raw markup whose sanitized form differs from it. -/
def rawC1 : String := "<div><script>x</script><p>hi</p></div>"

/-- The parse tree of `rawC1` as BeautifulSoup builds it. -/
def treeC1 : HNode :=
  .element "[document]" [] (.ofList
    [.element "div" [] (.ofList
      [.element "script" [] (.ofList [.text "x"]),
       .element "p" [] (.ofList [.text "hi"])])])

/-- Parser stand-in mapping `rawC1` to its tree. -/
def parseC1 : String → HNode :=
  fun s => if s = rawC1 then treeC1 else .element "[document]" [] .nil

/-- A tree with a text node inside a `div` and an `image` element. -/
def treeC5 : HNode :=
  .element "[document]" [] (.ofList
    [.element "div" [] (.ofList [.text "hi"]),
     .element "image" [] (.ofList [.text "pic"])])

/-- Character count as a concrete size estimator. -/
def strLen : String → Nat := fun s => s.data.length

/-- A subtree with an absolute link, a duplicate of it, an in-page
anchor, a mailto link, a root-relative link and a plain relative link. -/
def treeC6 : HNode :=
  .element "div" [] (.ofList
    [.element "a" [("href", "https://a.org/x")] (.ofList [.text "t1"]),
     .element "a" [("href", "https://a.org/x")] (.ofList [.text "t2"]),
     .element "a" [("href", "#frag")] (.ofList [.text "t3"]),
     .element "a" [("href", "mailto:u@e.com")] (.ofList [.text "t4"]),
     .element "a" [("href", "/rel")] (.ofList [.text "t5"]),
     .element "a" [("href", "page.html")] (.ofList [.text "t6"])])

/-- A document tree carrying a title, a language attribute and an
Open-Graph url meta element. -/
def treeC7 : HNode :=
  .element "[document]" [] (.ofList
    [.element "html" [("lang", "en")] (.ofList
      [.element "head" [] (.ofList
        [.element "title" [] (.ofList [.text "T"]),
         .element "meta" [("property", "og:url"), ("content", "https://u")] .nil])])])

/-- Sequencing of two pipeline-run results: run the second from the
document the first produced and concatenate the logs; an uncaught error
short-circuits. -/
def execSeq (r1 : Except String (Doc × List String))
    (f : Doc → Except String (Doc × List String)) :
    Except String (Doc × List String) :=
  match r1 with
  | .error e => .error e
  | .ok (d, logs) =>
    match f d with
    | .error e => .error e
    | .ok (d', logs') => .ok (d', logs ++ logs')

/-- A stage that always raises. -/
def stageBoom : Stage := ⟨"boom", fun _ _ => .error "kaboom"⟩

/-- A stage that sets the markdown field. -/
def stageSet : Stage := ⟨"setter", fun _ doc => .ok { doc with full_markdown := some "md" }⟩

/-- A size estimator under which serializations of 10 or more characters
blow the default budget while shorter ones are negligible. -/
def tok10 : String → Nat := fun s => if 10 ≤ s.data.length then 70000 else 1

/-! ## Claim theorems -/

/-- C1: the spec says each pipeline stage re-parses the cleaned markup of
the preceding stages; the code instead executes
`document["html"] = document["rawHtml"]` at the top of every loop
iteration, so every stage parses and consumes the raw markup and the
sanitizer's output is discarded.  At a document whose sanitized markup
differs from the raw markup, the final markdown is derived from the raw
markup (which still contains the removed `script` element) and the final
`html` field has been reset to the raw markup. -/
theorem c1_stages_consume_raw_markup :
    executeTransformers parseC1 (crawl_transformers_stages idSelect mdTag {})
        { rawHtml := some rawC1 } =
      .ok ({ rawHtml := some rawC1, html := some rawC1,
             full_markdown := some ("MD:" ++ rawC1),
             metadata := [("title", none), ("description", none),
                          ("keywords", none), ("language", none)],
             node_tree := some ["\x7b\"path\": \"iv/p\", \"text\": \"hi\"\x7d"] }, [])
    ∧ remove_unwanted_elements idSelect treeC1 [] false exclude_non_main_tags
        = "<div><p>hi</p></div>"
    ∧ "<div><p>hi</p></div>" ≠ rawC1 := by
  exact ⟨rfl, rfl, by decide⟩

/-- C2 counterexample: on a document whose raw markup is the empty
string, `execute_transformers` does not fail fast: each of the four stage
iterations raises the missing-input `ValueError`, which the per-stage
handler catches and logs, and the pipeline returns the document normally
(an `ok` result, not an error), with `html` set to the empty raw markup
and no derived field produced. -/
theorem c2_no_fail_fast_on_empty_raw :
    executeTransformers parseC1 (crawl_transformers_stages idSelect mdTag {})
        { rawHtml := some "" } =
      .ok ({ rawHtml := some "", html := some "" },
        ["Error in transformer _derive_html_from_raw_html: rawHtml is undefined or empty. Transformation cannot proceed.",
         "Error in transformer _derive_markdown_from_html: rawHtml is undefined or empty. Transformation cannot proceed.",
         "Error in transformer _derive_metadata_from_html: rawHtml is undefined or empty. Transformation cannot proceed.",
         "Error in transformer _derive_node_tree: rawHtml is undefined or empty. Transformation cannot proceed."]) := by
  exact rfl

/-- Helper: when the document's raw markup is the empty string and its
`html` field already equals it, every remaining stage iteration logs the
missing-input error and the document passes through unchanged. -/
theorem exec_all_stages_log_on_empty_raw :
    ∀ (parse : String → HNode) (stages : List Stage) (doc : Doc),
      doc.rawHtml = some "" → doc.html = some "" →
      executeTransformers parse stages doc =
        .ok (doc, stages.map (fun s => "Error in transformer " ++ s.name ++ ": " ++
          "rawHtml is undefined or empty. Transformation cannot proceed.")) := by
  intro parse stages
  induction stages with
  | nil => intro doc _ _; rfl
  | cons s rest ih =>
    intro doc h hh
    obtain ⟨raw, html, fm, md, nt, mp, mh, mm, ml⟩ := doc
    obtain rfl : raw = some "" := h
    obtain rfl : html = some "" := hh
    simp only [executeTransformers]
    rw [ih ⟨some "", some "", fm, md, nt, mp, mh, mm, ml⟩ rfl rfl]
    simp

/-- C2 as amended: with empty raw markup present, no stage body executes
and no derived field is produced, but the pipeline does not fail fast:
every stage iteration raises the missing-input error, the per-stage
handler logs it, and the document is returned normally, its `html` field
set to the empty raw markup.  The `{url, error}` result shape for empty
markup comes from the service boundary, which rejects an empty fetched
markup before the pipeline runs. -/
theorem c2_empty_raw_logged_per_stage :
    ∀ (parse : String → HNode) (s : Stage) (rest : List Stage) (doc : Doc),
      doc.rawHtml = some "" →
      executeTransformers parse (s :: rest) doc =
        .ok ({ doc with html := some "" },
          (s :: rest).map (fun s => "Error in transformer " ++ s.name ++ ": " ++
            "rawHtml is undefined or empty. Transformation cannot proceed."))
      ∧ (∀ (pipe : Doc → Except String (Doc × List String))
          (ext : String → Doc → Except String Doc) (url : String) (st : Nat),
          fetch_main_content pipe ext url ⟨"", st⟩ =
            .failure url "Failed to fetch content or bad status code") := by
  intro parse s rest doc h
  refine ⟨?_, fun pipe ext url st => rfl⟩
  obtain ⟨raw, html, fm, md, nt, mp, mh, mm, ml⟩ := doc
  obtain rfl : raw = some "" := h
  simp only [executeTransformers]
  rw [exec_all_stages_log_on_empty_raw parse rest
    ⟨some "", some "", fm, md, nt, mp, mh, mm, ml⟩ rfl rfl]
  simp

/-- C2 witness: the amended theorem applied to a concrete document with
empty raw markup and the concrete registered stage list. -/
theorem c2_empty_raw_logged_per_stage_witness :
    executeTransformers parseC1 (crawl_transformers_stages idSelect mdTag {})
        { rawHtml := some "", metadata := [("k", some "v")] } =
      .ok ({ rawHtml := some "", html := some "", metadata := [("k", some "v")] },
        ["Error in transformer _derive_html_from_raw_html: rawHtml is undefined or empty. Transformation cannot proceed.",
         "Error in transformer _derive_markdown_from_html: rawHtml is undefined or empty. Transformation cannot proceed.",
         "Error in transformer _derive_metadata_from_html: rawHtml is undefined or empty. Transformation cannot proceed.",
         "Error in transformer _derive_node_tree: rawHtml is undefined or empty. Transformation cannot proceed."]) := by
  exact (c2_empty_raw_logged_per_stage parseC1
    (derive_html_from_raw_html idSelect {})
    [derive_markdown_from_html mdTag, derive_metadata_from_html, derive_node_tree]
    { rawHtml := some "", metadata := [("k", some "v")] } rfl).1

/-- C3 counterexample: the claim's failure condition is wrong in both
directions it constrains.  With budget 2, the only non-empty subsequence
of `["hello"]` serializes to 9 characters and does not fit, yet the
trimmer succeeds, returning the empty sequence's serialization `[]`
instead of failing with `EmptySequence`.  And with budget `B = 0`
(`max_tokens or self.max_tokens` treats 0 as falsy), the trimmer returns
a serialization of estimated size 5 > 0, violating "size at most B". -/
theorem c3_trim_counterexample :
    trim_node_tree json_dumps_str_list strLen ["hello"] (some 2) = .ok ("[]", [])
    ∧ 2 < strLen (json_dumps_str_list ["hello"])
    ∧ trim_node_tree json_dumps_str_list strLen ["a"] (some 0) = .ok ("[\"a\"]", ["a"])
    ∧ 0 < strLen (json_dumps_str_list ["a"]) := by
  exact ⟨rfl, by decide, rfl, by decide⟩

/-- Helper: full characterization of the trim loop over the reversed
remaining list.  Either some suffix of `r` (a prefix of the original
sequence) fits the budget — the loop returns the serialization of the
longest such prefix together with the remaining list — or nothing fits,
not even the empty sequence, and the loop raises. -/
theorem trimLoop_spec (d : List String → String) (t : String → Nat) (B : Nat) :
    ∀ r : List String,
      (∃ k, k ≤ r.length ∧ t (d (r.drop k).reverse) ≤ B ∧
        (∀ j, j < k → B < t (d (r.drop j).reverse)) ∧
        trimLoop d t B r = .ok (d (r.drop k).reverse, (r.drop k).reverse))
      ∨ ((∀ j, j ≤ r.length → B < t (d (r.drop j).reverse)) ∧
         trimLoop d t B r = .error "Node tree is empty. Cannot trim further.") := by
  intro r
  induction r with
  | nil =>
    by_cases h : t (d ([] : List String)) ≤ B
    · exact .inl ⟨0, Nat.le_refl 0, by simpa using h, fun j hj => absurd hj (Nat.not_lt_zero j),
        by simp [trimLoop, h]⟩
    · refine .inr ⟨fun j _ => ?_, by simp [trimLoop, h]⟩
      simpa using Nat.lt_of_not_le h
  | cons x rest ih =>
    by_cases h : t (d ((x :: rest).reverse)) ≤ B
    · refine .inl ⟨0, Nat.zero_le _, h,
        fun j hj => absurd hj (Nat.not_lt_zero j), ?_⟩
      simp only [trimLoop]
      rw [if_pos h]
      rfl
    · rcases ih with ⟨k, hk, hfit, hmax, heq⟩ | ⟨hall, heq⟩
      · refine .inl ⟨k + 1, Nat.succ_le_succ hk, hfit, ?_, ?_⟩
        · intro j hj
          match j with
          | 0 => exact Nat.lt_of_not_le h
          | j + 1 => exact hmax j (Nat.lt_of_succ_lt_succ hj)
        · simp only [trimLoop]
          rw [if_neg h]
          exact heq
      · refine .inr ⟨?_, ?_⟩
        · intro j hj
          match j with
          | 0 => exact Nat.lt_of_not_le h
          | j + 1 => exact hall j (Nat.le_of_succ_le_succ hj)
        · simp only [trimLoop]
          rw [if_neg h]
          exact heq

theorem drop_reverse_eq_take {α : Type} (S : List α) (k : Nat) :
    (S.reverse.drop k).reverse = S.take (S.length - k) := by
  rw [← List.rdrop_eq_reverse_drop_reverse]
  rfl

/-- Helper: `_trim_node_tree` either returns the longest prefix of the
input whose serialization fits the effective budget (together with that
prefix, the in-place remnant of the list), or fails because every prefix,
the empty one included, exceeds the budget. -/
theorem trim_node_tree_spec (d : List String → String) (t : String → Nat)
    (mt : Option Nat) (S : List String) :
    (∃ n, n ≤ S.length ∧ t (d (S.take n)) ≤ effBudget mt ∧
      (∀ m, n < m → m ≤ S.length → effBudget mt < t (d (S.take m))) ∧
      trim_node_tree d t S mt = .ok (d (S.take n), S.take n))
    ∨ ((∀ n, n ≤ S.length → effBudget mt < t (d (S.take n))) ∧
       trim_node_tree d t S mt = .error "Node tree is empty. Cannot trim further.") := by
  have hlen : S.reverse.length = S.length := List.length_reverse S
  rcases trimLoop_spec d t (effBudget mt) S.reverse with
    ⟨k, hk, hfit, hmax, heq⟩ | ⟨hall, heq⟩
  · rw [hlen] at hk
    rw [drop_reverse_eq_take] at hfit heq
    refine .inl ⟨S.length - k, Nat.sub_le _ _, hfit, ?_, heq⟩
    intro m hm hm2
    have hj : S.length - m < k := by omega
    have := hmax (S.length - m) hj
    rw [drop_reverse_eq_take] at this
    have he : S.length - (S.length - m) = m := by omega
    rwa [he] at this
  · refine .inr ⟨?_, heq⟩
    intro n hn
    have := hall (S.length - n) (by omega)
    rw [drop_reverse_eq_take] at this
    have he : S.length - (S.length - n) = n := by omega
    rwa [he] at this

/-- C3 as amended: the requested budget is effective only when positive
(`None` and `0` fall back to the default 60000); the trimmer returns the
longest prefix of `S` (possibly the empty prefix) whose estimated
serialized size is within the effective budget, and it fails with
`EmptySequence` iff every prefix of `S` — the empty prefix included —
exceeds the effective budget. -/
theorem c3_trim_longest_fitting_prefix (d : List String → String)
    (t : String → Nat) (mt : Option Nat) (S : List String) :
    effBudget none = 60000 ∧ effBudget (some 0) = 60000 ∧
    (∀ n, 0 < n → effBudget (some n) = n) ∧
    ((∃ n, n ≤ S.length ∧ t (d (S.take n)) ≤ effBudget mt ∧
        (∀ m, n < m → m ≤ S.length → effBudget mt < t (d (S.take m))) ∧
        trim_node_tree d t S mt = .ok (d (S.take n), S.take n))
      ∨ ((∀ n, n ≤ S.length → effBudget mt < t (d (S.take n))) ∧
         trim_node_tree d t S mt = .error "Node tree is empty. Cannot trim further.")) := by
  refine ⟨rfl, rfl, ?_, trim_node_tree_spec d t mt S⟩
  intro n hn
  match n, hn with
  | n + 1, _ => rfl

/-- C3 witness: the amended characterization instantiated at a concrete
estimator, sequence and budget. -/
theorem c3_trim_longest_fitting_prefix_witness :
    effBudget none = 60000 ∧ effBudget (some 0) = 60000 ∧
    (∀ n, 0 < n → effBudget (some n) = n) ∧
    ((∃ n, n ≤ (["hello"] : List String).length ∧
        strLen (json_dumps_str_list ((["hello"] : List String).take n)) ≤ effBudget (some 2) ∧
        (∀ m, n < m → m ≤ (["hello"] : List String).length →
          effBudget (some 2) < strLen (json_dumps_str_list ((["hello"] : List String).take m))) ∧
        trim_node_tree json_dumps_str_list strLen ["hello"] (some 2) =
          .ok (json_dumps_str_list ((["hello"] : List String).take n),
            (["hello"] : List String).take n))
      ∨ ((∀ n, n ≤ (["hello"] : List String).length →
          effBudget (some 2) < strLen (json_dumps_str_list ((["hello"] : List String).take n))) ∧
         trim_node_tree json_dumps_str_list strLen ["hello"] (some 2) =
           .error "Node tree is empty. Cannot trim further.")) :=
  c3_trim_longest_fitting_prefix json_dumps_str_list strLen (some 2) ["hello"]

/-- C4: applying the resolved path expression to the parsed tree, zero
matches raise `ContentNotFound` ("Main content nodes not found in the
HTML."), a hard failure for the document; exactly one match returns that
node's serialized markup unchanged; several matches return the
concatenation of their serialized markup in match order (an error from
the parse/xpath collaborators is wrapped as a selection failure). -/
theorem c4_selector_extractor_matches (Tree Node : Type)
    (fromstring : String → Except String Tree)
    (xpath : Tree → String → Except String (List Node))
    (tostring : Node → String) (full sel : String) (tr : Tree)
    (hft : fromstring full = .ok tr) :
    (xpath tr sel = .ok [] →
      get_main_content_html fromstring xpath tostring full sel =
        .error "Main content nodes not found in the HTML.")
    ∧ (∀ n, xpath tr sel = .ok [n] →
      get_main_content_html fromstring xpath tostring full sel = .ok (tostring n))
    ∧ (∀ ns, ns ≠ [] → xpath tr sel = .ok ns →
      get_main_content_html fromstring xpath tostring full sel =
        .ok (pyJoin "" (ns.map tostring)))
    ∧ (∀ e, xpath tr sel = .error e →
      get_main_content_html fromstring xpath tostring full sel =
        .error ("Failed to select main content nodes: " ++ e)) := by
  refine ⟨?_, ?_, ?_, ?_⟩
  · intro h0
    simp [get_main_content_html, hft, h0, Except.bind]
  · intro n h1
    simp [get_main_content_html, hft, h1, Except.bind, pyJoin]
  · intro ns hne h2
    cases ns with
    | nil => exact absurd rfl hne
    | cons a l => simp [get_main_content_html, hft, h2, Except.bind]
  · intro e he
    simp [get_main_content_html, hft, he, Except.bind]

/-- C4 witness: the three match cardinalities at concrete collaborators
(`Tree = Unit`, nodes serialized as strings). -/
theorem c4_selector_extractor_matches_witness :
    get_main_content_html (fun _ => .ok ())
        (fun (_ : Unit) (_ : String) => .ok ([] : List String)) id "x" "/p" =
      .error "Main content nodes not found in the HTML."
    ∧ get_main_content_html (fun _ => .ok ())
        (fun (_ : Unit) (_ : String) => .ok ["<p>a</p>"]) id "x" "/p" = .ok "<p>a</p>"
    ∧ get_main_content_html (fun _ => .ok ())
        (fun (_ : Unit) (_ : String) => .ok ["<p>a</p>", "<b>b</b>"]) id "x" "/p" =
      .ok "<p>a</p><b>b</b>" := by
  refine ⟨?_, ?_, ?_⟩
  · exact (c4_selector_extractor_matches Unit String (fun _ => .ok ())
      (fun _ _ => .ok []) id "x" "/p" () rfl).1 rfl
  · exact (c4_selector_extractor_matches Unit String (fun _ => .ok ())
      (fun _ _ => .ok ["<p>a</p>"]) id "x" "/p" () rfl).2.1 "<p>a</p>" rfl
  · have h := (c4_selector_extractor_matches Unit String (fun _ => .ok ())
      (fun _ _ => .ok ["<p>a</p>", "<b>b</b>"]) id "x" "/p" () rfl).2.2.1
      ["<p>a</p>", "<b>b</b>"] (by decide) rfl
    exact h

/-- C10: on a successful main-content extraction, the document's
`node_tree` field holds exactly the trimmed prefix the budget admitted —
`_trim_node_tree` pops records off the caller's list in place and the
document keeps aliasing that list — and when the full serialized sequence
exceeded the default budget the retained prefix is a proper one. -/
theorem c10_extract_stores_trimmed_node_tree (Tree Node : Type)
    (dumps : List String → String) (tok : String → Nat)
    (oracle : String → Except String String)
    (fromstring : String → Except String Tree)
    (xpath : Tree → String → Except String (List Node)) (tostring : Node → String)
    (h2md : String → String) (parse : String → HNode)
    (urljoin : String → String → String)
    (url : String) (doc : Doc) (nt : List String) (d' : Doc)
    (hnt : doc.node_tree = some nt)
    (hok : extract_main_content dumps tok oracle fromstring xpath tostring
      h2md parse urljoin url doc = .ok d') :
    ∃ n, n ≤ nt.length ∧ d'.node_tree = some (nt.take n) ∧
      tok (dumps (nt.take n)) ≤ 60000 ∧
      (60000 < tok (dumps nt) → nt.take n ≠ nt) := by
  cases hh : doc.html with
  | none =>
    rw [extract_main_content] at hok
    simp [hh] at hok
  | some fh =>
    rcases trim_node_tree_spec dumps tok none nt with
      ⟨n, hn, hfit, hmax, heq⟩ | ⟨hall, heq⟩
    · refine ⟨n, hn, ?_, hfit, ?_⟩
      · rw [extract_main_content] at hok
        simp only [hh, hnt, heq] at hok
        cases ho : oracle (dumps (nt.take n)) with
        | error e => simp [ho] at hok
        | ok content =>
          simp only [ho] at hok
          cases hg : get_main_content_html fromstring xpath tostring fh
              (clean_result_path (pyStrip content)) with
          | error e => simp [hg] at hok
          | ok mc =>
            simp only [hg] at hok
            cases hok
            rfl
      · intro hbig heqfull
        rw [heqfull] at hfit
        exact absurd hbig (Nat.not_lt_of_le hfit)
    · rw [extract_main_content] at hok
      simp [hh, hnt, heq] at hok

/-- C10 witness: a two-record node tree whose full serialization blows
the default budget; after a successful extraction the document's
`node_tree` holds only the one-record prefix. -/
theorem c10_extract_stores_trimmed_node_tree_witness :
    ∃ n, n ≤ (["a", "b"] : List String).length ∧
      (⟨none, some "<p>hi</p>", none, [], some ["a"], some "p", some "<p>hi</p>",
        some "<p>hi</p>", some []⟩ : Doc).node_tree =
        some ((["a", "b"] : List String).take n) ∧
      tok10 (json_dumps_str_list ((["a", "b"] : List String).take n)) ≤ 60000 ∧
      (60000 < tok10 (json_dumps_str_list ["a", "b"]) →
        (["a", "b"] : List String).take n ≠ ["a", "b"]) :=
  c10_extract_stores_trimmed_node_tree Unit String json_dumps_str_list tok10
    (fun _ => .ok "p") (fun _ => .ok ()) (fun _ _ => .ok ["<p>hi</p>"]) id id
    (fun _ => .element "[document]" [] .nil) (fun b h => b ++ h) "u"
    ⟨none, some "<p>hi</p>", none, [], some ["a", "b"], none, none, none, none⟩
    ["a", "b"]
    ⟨none, some "<p>hi</p>", none, [], some ["a"], some "p", some "<p>hi</p>",
      some "<p>hi</p>", some []⟩
    rfl rfl

mutual
/-- Helper: the node serializer emits exactly the collected
`(ancestor path, stripped text)` pairs, rendered as JSON records with the
root-marker character set stripped from the front of each path. -/
theorem node_to_jsonl_eq_collect (ne : List String) (pp : String) :
    ∀ n : HNode, node_to_jsonl ne pp n =
      (collectTexts ne pp n).map
        (fun pr => json_dumps_record (pyLstrip pr.1 "/[document]") pr.2)
  | .comment _ => rfl
  | .text s => by
    simp only [node_to_jsonl, collectTexts]
    by_cases h : pyStrip s ≠ ""
    · rw [if_pos h, if_pos h]
      rfl
    · rw [if_neg h, if_neg h]
      rfl
  | .element nm a ch => by
    simp only [node_to_jsonl, collectTexts]
    by_cases h : pyLower nm ∈ ne
    · rw [if_pos h, if_pos h]
      rfl
    · rw [if_neg h, if_neg h]
      exact node_to_jsonlF_eq_collect ne _ ch
termination_by structural n => n
theorem node_to_jsonlF_eq_collect (ne : List String) (pp : String) :
    ∀ f : HForest, node_to_jsonlF ne pp f =
      (collectTextsF ne pp f).map
        (fun pr => json_dumps_record (pyLstrip pr.1 "/[document]") pr.2)
  | .nil => rfl
  | .cons c cs => by
    simp only [node_to_jsonlF, collectTextsF, List.map_append]
    rw [node_to_jsonl_eq_collect ne pp c, node_to_jsonlF_eq_collect ne pp cs]
termination_by structural f => f
end

/-- C5 counterexample: on `[document] → (div → "hi", image → "pic")` the
serializer emits the record path `iv` — the Python `lstrip("/[document]")`
strips a character set, eating the `d` of `div` along with the root
marker — and it emits a record for the `image` subtree, because the
code's non-essential set contains `img`, not `image`. -/
theorem c5_mangled_path_and_image_kept :
    node_to_jsonl non_essential_tags "" treeC5 =
      ["\x7b\"path\": \"iv\", \"text\": \"hi\"\x7d",
       "\x7b\"path\": \"image\", \"text\": \"pic\"\x7d"]
    ∧ pyLstrip "/[document]/div" "/[document]" = "iv"
    ∧ "image" ∉ non_essential_tags ∧ "img" ∈ non_essential_tags := by
  exact ⟨rfl, rfl, by decide, by decide⟩

/-- C5 as amended: a record is emitted exactly for the non-comment text
nodes whose stripped content is non-empty, in pre-order, skipping
elements of the non-essential set (which contains `img`, not `image`)
together with their whole subtrees; each record's path is the node's
ancestor-tag path with its maximal leading run of characters from the set
of `"/[document]"` removed (stripping the root marker, but also able to
truncate a leading tag name made of those characters). -/
theorem c5_serializer_characterization :
    ∀ (ne : List String) (pp : String) (n : HNode),
      node_to_jsonl ne pp n =
        (collectTexts ne pp n).map
          (fun pr => json_dumps_record (pyLstrip pr.1 "/[document]") pr.2)
      ∧ (∀ (nm : String) (a : List (String × String)) (ch : HForest),
          pyLower nm ∈ ne → node_to_jsonl ne pp (.element nm a ch) = []) := by
  intro ne pp n
  refine ⟨node_to_jsonl_eq_collect ne pp n, ?_⟩
  intro nm a ch h
  simp only [node_to_jsonl]
  rw [if_pos h]

/-- C5 witness: the characterization instantiated at a concrete tree. -/
theorem c5_serializer_characterization_witness :
    node_to_jsonl non_essential_tags "" treeC5 =
      (collectTexts non_essential_tags "" treeC5).map
        (fun pr => json_dumps_record (pyLstrip pr.1 "/[document]") pr.2)
    ∧ (∀ (nm : String) (a : List (String × String)) (ch : HForest),
        pyLower nm ∈ non_essential_tags →
        node_to_jsonl non_essential_tags "" (.element nm a ch) = []) :=
  c5_serializer_characterization non_essential_tags "" treeC5

theorem pyStartswith_head_eq (s p : String) (h : pyStartswith s p = true)
    (c : Char) (hc : p.data.head? = some c) : s.data.head? = some c := by
  unfold pyStartswith at h
  cases hp : p.data with
  | nil => rw [hp] at hc; simp at hc
  | cons a as =>
    rw [hp] at h hc
    simp at hc
    cases hs : s.data with
    | nil => rw [hs] at h; simp [List.isPrefixOf] at h
    | cons b bs =>
      rw [hs] at h
      simp [List.isPrefixOf] at h
      simp [hc ▸ h.1]

theorem pyStartswith_excl (s p q : String) (c d : Char)
    (hc : p.data.head? = some c) (hd : q.data.head? = some d) (hne : c ≠ d)
    (hp : pyStartswith s p = true) : pyStartswith s q = false := by
  cases hb : pyStartswith s q
  · rfl
  · have h1 := pyStartswith_head_eq s p hp c hc
    have h2 := pyStartswith_head_eq s q hb d hd
    rw [h1] at h2
    exact absurd (Option.some.inj h2) hne

theorem setAdd_nodup (l : List String) (u : String) (h : l.Nodup) :
    (setAdd l u).Nodup := by
  by_cases hm : u ∈ l
  · rw [setAdd, if_pos hm]
    exact h
  · rw [setAdd, if_neg hm]
    simp [List.nodup_append, h, hm]

theorem foldl_setAdd_nodup (L : List String) :
    ∀ acc : List String, acc.Nodup → (L.foldl setAdd acc).Nodup := by
  induction L with
  | nil => intro acc h; exact h
  | cons a rest ih => intro acc h; exact ih (setAdd acc a) (setAdd_nodup acc a h)

theorem resolveHref_step (uj : String → String → String) (base h : String)
    (acc : List String) :
    (if pyStartswith h "http://" || pyStartswith h "https://" then setAdd acc h
     else if pyStartswith h "/" then setAdd acc (uj base h)
     else if !(pyStartswith h "#" || pyStartswith h "mailto:") then
       setAdd acc (uj base h)
     else if pyStartswith h "mailto:" then setAdd acc h
     else acc) =
    (match resolveHref uj base h with
     | some u => setAdd acc u
     | none => acc) := by
  unfold resolveHref
  split_ifs <;> rfl

theorem extract_links_foldgen (uj : String → String → String) (base : String) :
    ∀ (hrefs acc : List String),
      hrefs.foldl
        (fun links href =>
          if pyStartswith href "http://" || pyStartswith href "https://" then
            setAdd links href
          else if pyStartswith href "/" then setAdd links (uj base href)
          else if !(pyStartswith href "#" || pyStartswith href "mailto:") then
            setAdd links (uj base href)
          else if pyStartswith href "mailto:" then setAdd links href
          else links) acc =
      (hrefs.filterMap (resolveHref uj base)).foldl setAdd acc := by
  intro hrefs
  induction hrefs with
  | nil => intro acc; rfl
  | cons h rest ih =>
    intro acc
    rw [List.foldl_cons, resolveHref_step uj base h acc]
    cases hr : resolveHref uj base h with
    | some u => simp only [List.filterMap_cons, hr, List.foldl_cons]; exact ih (setAdd acc u)
    | none => simp only [List.filterMap_cons, hr]; exact ih acc

/-- C6: the link extractor returns no duplicate URLs (Python `set`
semantics), and each `href` is handled by the branch ladder
`resolveHref`: in-page anchors (`#...`) are dropped; absolute `http(s)`
and `mailto:` links pass through unresolved; root-relative (`/...`) and
every other relative link resolve against the base URL via `urljoin`. -/
theorem c6_extract_links_properties (uj : String → String → String)
    (tree : HNode) (base : String) :
    (extract_links uj tree base).Nodup
    ∧ extract_links uj tree base =
        ((findAllHrefs tree).filterMap (resolveHref uj base)).foldl setAdd []
    ∧ (∀ h, pyStartswith h "#" = true → resolveHref uj base h = none)
    ∧ (∀ h, pyStartswith h "http://" = true ∨ pyStartswith h "https://" = true →
        resolveHref uj base h = some h)
    ∧ (∀ h, pyStartswith h "mailto:" = true → resolveHref uj base h = some h)
    ∧ (∀ h, pyStartswith h "/" = true → resolveHref uj base h = some (uj base h))
    ∧ (∀ h, pyStartswith h "#" = false → pyStartswith h "http://" = false →
        pyStartswith h "https://" = false → pyStartswith h "mailto:" = false →
        resolveHref uj base h = some (uj base h)) := by
  have heq : extract_links uj tree base =
      ((findAllHrefs tree).filterMap (resolveHref uj base)).foldl setAdd [] := by
    unfold extract_links
    exact extract_links_foldgen uj base (findAllHrefs tree) []
  refine ⟨?_, heq, ?_, ?_, ?_, ?_, ?_⟩
  · rw [heq]
    exact foldl_setAdd_nodup _ [] List.nodup_nil
  · intro h hh
    have h1 : pyStartswith h "http://" = false :=
      pyStartswith_excl h "#" "http://" '#' 'h' rfl rfl (by decide) hh
    have h2 : pyStartswith h "https://" = false :=
      pyStartswith_excl h "#" "https://" '#' 'h' rfl rfl (by decide) hh
    have h3 : pyStartswith h "/" = false :=
      pyStartswith_excl h "#" "/" '#' '/' rfl rfl (by decide) hh
    have h4 : pyStartswith h "mailto:" = false :=
      pyStartswith_excl h "#" "mailto:" '#' 'm' rfl rfl (by decide) hh
    simp [resolveHref, h1, h2, h3, h4, hh]
  · intro h hor
    rcases hor with h1 | h1 <;> simp [resolveHref, h1]
  · intro h hm
    have h1 : pyStartswith h "http://" = false :=
      pyStartswith_excl h "mailto:" "http://" 'm' 'h' rfl rfl (by decide) hm
    have h2 : pyStartswith h "https://" = false :=
      pyStartswith_excl h "mailto:" "https://" 'm' 'h' rfl rfl (by decide) hm
    have h3 : pyStartswith h "/" = false :=
      pyStartswith_excl h "mailto:" "/" 'm' '/' rfl rfl (by decide) hm
    simp [resolveHref, h1, h2, h3, hm]
  · intro h hs
    have h1 : pyStartswith h "http://" = false :=
      pyStartswith_excl h "/" "http://" '/' 'h' rfl rfl (by decide) hs
    have h2 : pyStartswith h "https://" = false :=
      pyStartswith_excl h "/" "https://" '/' 'h' rfl rfl (by decide) hs
    simp [resolveHref, h1, h2, hs]
  · intro h h1 h2 h3 h4
    simp [resolveHref, h1, h2, h3, h4]

/-- C6 witness: the properties instantiated at a concrete subtree holding
an absolute link, a duplicate, an anchor, a mailto and two relative
links, with string concatenation as the `urljoin` collaborator. -/
theorem c6_extract_links_properties_witness :
    (extract_links (fun b h => b ++ h) treeC6 "https://ex.com").Nodup
    ∧ extract_links (fun b h => b ++ h) treeC6 "https://ex.com" =
        ((findAllHrefs treeC6).filterMap
          (resolveHref (fun b h => b ++ h) "https://ex.com")).foldl setAdd []
    ∧ (∀ h, pyStartswith h "#" = true →
        resolveHref (fun b h => b ++ h) "https://ex.com" h = none)
    ∧ (∀ h, pyStartswith h "http://" = true ∨ pyStartswith h "https://" = true →
        resolveHref (fun b h => b ++ h) "https://ex.com" h = some h)
    ∧ (∀ h, pyStartswith h "mailto:" = true →
        resolveHref (fun b h => b ++ h) "https://ex.com" h = some h)
    ∧ (∀ h, pyStartswith h "/" = true →
        resolveHref (fun b h => b ++ h) "https://ex.com" h = some ("https://ex.com" ++ h))
    ∧ (∀ h, pyStartswith h "#" = false → pyStartswith h "http://" = false →
        pyStartswith h "https://" = false → pyStartswith h "mailto:" = false →
        resolveHref (fun b h => b ++ h) "https://ex.com" h =
          some ("https://ex.com" ++ h)) :=
  c6_extract_links_properties (fun b h => b ++ h) treeC6 "https://ex.com"

theorem dictGet_dictSet_self (m : PyDict) (k : String) (v : Option String) :
    dictGet (dictSet m k v) k = some v := by
  induction m with
  | nil => simp [dictSet, dictGet]
  | cons kv rest ih =>
    obtain ⟨k1, v1⟩ := kv
    by_cases h : k1 = k
    · subst h
      simp [dictSet, dictGet]
    · simp [dictSet, dictGet, h, ih]

theorem dictGet_dictSet_ne (m : PyDict) (k k' : String) (v : Option String)
    (h : k' ≠ k) : dictGet (dictSet m k v) k' = dictGet m k' := by
  have h' : ¬k = k' := fun hh => h hh.symm
  induction m with
  | nil => simp [dictSet, dictGet, h']
  | cons kv rest ih =>
    obtain ⟨k1, v1⟩ := kv
    by_cases hk : k1 = k
    · subst hk
      simp [dictSet, dictGet, h']
    · simp [dictSet, dictGet, hk, ih]

theorem dictGet_none_of_not_mem (m : PyDict) (k : String)
    (h : k ∉ m.map Prod.fst) : dictGet m k = none := by
  induction m with
  | nil => rfl
  | cons kv rest ih =>
    obtain ⟨k1, v1⟩ := kv
    rw [List.map_cons] at h
    have h1 : ¬k1 = k := fun hh => h (by simp [hh])
    have h2 : k ∉ rest.map Prod.fst := fun hh => h (by simp [hh])
    simp [dictGet, h1, ih h2]

theorem dictMerge_lookup_notin (m : PyDict) :
    ∀ (ex : PyDict) (k : String), dictGet m k = none →
      dictGet (dictMerge ex m) k = dictGet ex k := by
  induction m with
  | nil => intro ex k _; rfl
  | cons kv rest ih =>
    obtain ⟨k1, v1⟩ := kv
    intro ex k h
    simp only [dictGet] at h
    by_cases hk : k1 = k
    · simp [hk] at h
    · rw [if_neg hk] at h
      show dictGet (dictMerge (dictSet ex k1 v1) rest) k = dictGet ex k
      rw [ih (dictSet ex k1 v1) k h,
        dictGet_dictSet_ne ex k1 k v1 (fun hh => hk hh.symm)]

/-- Helper: the Python dict merge `{**ex, **m}` looks up to `m` for every
key `m` holds, i.e. it never overwrites a key of `m` with a value from
`ex` (keys of a Python dict are unique, hence the `Nodup` premise). -/
theorem dictMerge_preserves (m : PyDict) :
    ∀ (ex : PyDict) (k : String), (m.map Prod.fst).Nodup →
      dictGet m k ≠ none → dictGet (dictMerge ex m) k = dictGet m k := by
  induction m with
  | nil => intro ex k _ h; exact absurd rfl h
  | cons kv rest ih =>
    obtain ⟨k1, v1⟩ := kv
    intro ex k hnd h
    simp only [List.map_cons, List.nodup_cons] at hnd
    by_cases hk : k1 = k
    · subst hk
      have hrest : dictGet rest k1 = none :=
        dictGet_none_of_not_mem rest k1 hnd.1
      show dictGet (dictMerge (dictSet ex k1 v1) rest) k1 = _
      rw [dictMerge_lookup_notin rest (dictSet ex k1 v1) k1 hrest,
        dictGet_dictSet_self, dictGet, if_pos rfl]
    · simp only [dictGet, if_neg hk] at h ⊢
      show dictGet (dictMerge (dictSet ex k1 v1) rest) k = _
      exact ih (dictSet ex k1 v1) k hnd.2 h

/-- C7 counterexample: on a tree with no title, meta tags or html
element, the extractor still emits all four keys — present and mapped to
Python `None` — where the claim requires the keys to be absent. -/
theorem c7_keys_present_with_none :
    extract_metadata (.element "[document]" [] .nil) =
      [("title", none), ("description", none), ("keywords", none), ("language", none)] := by
  exact rfl

/-- Helper: the Open-Graph fold of `extract_metadata` only ever adds or
updates entries, so any key already present stays present. -/
theorem og_fold_preserves (soup : HNode) (tags : List String) :
    ∀ (m : PyDict) (k : String), dictGet m k ≠ none →
      dictGet (tags.foldl (fun md tag =>
        match findTagAttr "meta" "property" tag soup with
        | some mt => dictSet md (pyReplace tag "og:" "") (getAttr "content" mt.attrsOf)
        | none => md) m) k ≠ none := by
  induction tags with
  | nil => intro m k h; exact h
  | cons t rest ih =>
    intro m k h
    rw [List.foldl_cons]
    cases hf : findTagAttr "meta" "property" t soup with
    | none =>
      simp only [hf]
      exact ih m k h
    | some mt =>
      simp only [hf]
      apply ih
      by_cases hk : pyReplace t "og:" "" = k
      · rw [hk, dictGet_dictSet_self]
        simp
      · rw [dictGet_dictSet_ne _ _ _ _ (fun hh => hk hh.symm)]
        exact h

/-- C7 as amended: the extractor ALWAYS emits the `title`, `description`,
`keywords` and `language` keys — present and mapped to Python `None` when
the corresponding source is missing, not absent; the Open-Graph-only bare
keys `url` and `image` are present exactly when the property-tagged meta
element exists, holding its `content` attribute (itself possibly `None`);
and the stage merge `{**extract_metadata(soup), **document["metadata"]}`
never overwrites a pre-existing entry of the document's metadata map. -/
theorem c7_metadata_shape (soup : HNode) :
    (∀ k, k ∈ ["title", "description", "keywords", "language"] →
      dictGet (extract_metadata soup) k ≠ none)
    ∧ dictGet (extract_metadata soup) "url" =
        (findTagAttr "meta" "property" "og:url" soup).map
          (fun mt => getAttr "content" mt.attrsOf)
    ∧ dictGet (extract_metadata soup) "image" =
        (findTagAttr "meta" "property" "og:image" soup).map
          (fun mt => getAttr "content" mt.attrsOf)
    ∧ (∀ doc : Doc, derive_metadata_from_html.run soup doc =
        .ok { doc with metadata := dictMerge (extract_metadata soup) doc.metadata })
    ∧ (∀ (ex m : PyDict) (k : String), (m.map Prod.fst).Nodup →
        dictGet m k ≠ none → dictGet (dictMerge ex m) k = dictGet m k) := by
  have e1 : pyReplace "og:title" "og:" "" = "title" := rfl
  have e2 : pyReplace "og:description" "og:" "" = "description" := rfl
  have e3 : pyReplace "og:url" "og:" "" = "url" := rfl
  have e4 : pyReplace "og:image" "og:" "" = "image" := rfl
  refine ⟨?_, ?_, ?_, fun doc => rfl, fun ex m k => dictMerge_preserves m ex k⟩
  · intro k hk
    have hbase : dictGet
        [("title", (findTag "title" soup).bind nodeString),
         ("description", (findTagAttr "meta" "name" "description" soup).bind
           (getAttr "content" ∘ HNode.attrsOf)),
         ("keywords", (findTagAttr "meta" "name" "keywords" soup).bind
           (getAttr "content" ∘ HNode.attrsOf)),
         ("language", (findTag "html" soup).bind
           (getAttr "lang" ∘ HNode.attrsOf))] k ≠ none := by
      fin_cases hk <;> simp [dictGet]
    exact og_fold_preserves soup ["og:title", "og:description", "og:url", "og:image"]
      _ k hbase
  · cases h1 : findTagAttr "meta" "property" "og:title" soup <;>
    cases h2 : findTagAttr "meta" "property" "og:description" soup <;>
    cases h3 : findTagAttr "meta" "property" "og:url" soup <;>
    cases h4 : findTagAttr "meta" "property" "og:image" soup <;>
      simp [extract_metadata, h1, h2, h3, h4, e1, e2, e3, e4, dictSet, dictGet]
  · cases h1 : findTagAttr "meta" "property" "og:title" soup <;>
    cases h2 : findTagAttr "meta" "property" "og:description" soup <;>
    cases h3 : findTagAttr "meta" "property" "og:url" soup <;>
    cases h4 : findTagAttr "meta" "property" "og:image" soup <;>
      simp [extract_metadata, h1, h2, h3, h4, e1, e2, e3, e4, dictSet, dictGet]

/-- C7 witness: the metadata shape facts instantiated at a concrete tree
with a title, a language attribute and an `og:url` meta element. -/
theorem c7_metadata_shape_witness :
    (∀ k, k ∈ ["title", "description", "keywords", "language"] →
      dictGet (extract_metadata treeC7) k ≠ none)
    ∧ dictGet (extract_metadata treeC7) "url" =
        (findTagAttr "meta" "property" "og:url" treeC7).map
          (fun mt => getAttr "content" mt.attrsOf)
    ∧ dictGet (extract_metadata treeC7) "image" =
        (findTagAttr "meta" "property" "og:image" treeC7).map
          (fun mt => getAttr "content" mt.attrsOf)
    ∧ (∀ doc : Doc, derive_metadata_from_html.run treeC7 doc =
        .ok { doc with metadata := dictMerge (extract_metadata treeC7) doc.metadata })
    ∧ (∀ (ex m : PyDict) (k : String), (m.map Prod.fst).Nodup →
        dictGet m k ≠ none → dictGet (dictMerge ex m) k = dictGet m k) :=
  c7_metadata_shape treeC7

mutual
theorem removeTags_nil : ∀ n : HNode, removeTags [] n = n
  | .text _ => rfl
  | .comment _ => rfl
  | .element nm attrs ch => by
    show HNode.element nm attrs (removeTagsF [] ch) = .element nm attrs ch
    rw [removeTagsF_nil ch]
theorem removeTagsF_nil : ∀ f : HForest, removeTagsF [] f = f
  | .nil => rfl
  | .cons c cs => by
    cases c with
    | text s =>
      show HForest.cons (.text s) (removeTagsF [] cs) = .cons (.text s) cs
      rw [removeTagsF_nil cs]
    | comment s =>
      show HForest.cons (.comment s) (removeTagsF [] cs) = .cons (.comment s) cs
      rw [removeTagsF_nil cs]
    | element nm attrs ch =>
      show (if nm ∈ ([] : List String) then removeTagsF [] cs
        else .cons (.element nm attrs (removeTagsF [] ch)) (removeTagsF [] cs)) =
        .cons (.element nm attrs ch) cs
      rw [if_neg (List.not_mem_nil nm), removeTagsF_nil ch, removeTagsF_nil cs]
termination_by structural f => f
end

mutual
/-- Helper: removing one tag and then a tag set simultaneously equals
removing the enlarged set simultaneously. -/
theorem removeTags_removeTag (a : String) (tags : List String) :
    ∀ n : HNode, removeTags tags (removeTag a n) = removeTags (a :: tags) n
  | .text _ => rfl
  | .comment _ => rfl
  | .element nm attrs ch => by
    show HNode.element nm attrs (removeTagsF tags (removeTagF a ch)) =
      .element nm attrs (removeTagsF (a :: tags) ch)
    rw [removeTagsF_removeTagF a tags ch]
theorem removeTagsF_removeTagF (a : String) (tags : List String) :
    ∀ f : HForest, removeTagsF tags (removeTagF a f) = removeTagsF (a :: tags) f
  | .nil => rfl
  | .cons c cs => by
    cases c with
    | text s =>
      show HForest.cons (.text s) (removeTagsF tags (removeTagF a cs)) =
        .cons (.text s) (removeTagsF (a :: tags) cs)
      rw [removeTagsF_removeTagF a tags cs]
    | comment s =>
      show HForest.cons (.comment s) (removeTagsF tags (removeTagF a cs)) =
        .cons (.comment s) (removeTagsF (a :: tags) cs)
      rw [removeTagsF_removeTagF a tags cs]
    | element nm attrs ch =>
      by_cases ha : nm = a
      · have hd : isElementNamed a (.element nm attrs ch) = true := by
          simp [isElementNamed, ha]
        have hmem : nm ∈ a :: tags := by
          rw [ha]
          exact List.mem_cons_self a tags
        show removeTagsF tags (if isElementNamed a (.element nm attrs ch) then
            removeTagF a cs
          else .cons (removeTag a (.element nm attrs ch)) (removeTagF a cs)) = _
        rw [hd]
        show removeTagsF tags (removeTagF a cs) =
          removeTagsF (a :: tags) (.cons (.element nm attrs ch) cs)
        rw [removeTagsF_removeTagF a tags cs]
        show _ = (if nm ∈ a :: tags then removeTagsF (a :: tags) cs
          else .cons (.element nm attrs (removeTagsF (a :: tags) ch))
            (removeTagsF (a :: tags) cs))
        rw [if_pos hmem]
      · have hd : isElementNamed a (.element nm attrs ch) = false := by
          simp [isElementNamed, ha]
        show removeTagsF tags (if isElementNamed a (.element nm attrs ch) then
            removeTagF a cs
          else .cons (removeTag a (.element nm attrs ch)) (removeTagF a cs)) = _
        rw [hd]
        show removeTagsF tags
            (.cons (.element nm attrs (removeTagF a ch)) (removeTagF a cs)) = _
        by_cases hm : nm ∈ tags
        · have hm' : nm ∈ a :: tags := List.mem_cons_of_mem a hm
          show (if nm ∈ tags then removeTagsF tags (removeTagF a cs)
            else _) = _
          rw [if_pos hm, removeTagsF_removeTagF a tags cs]
          show _ = (if nm ∈ a :: tags then removeTagsF (a :: tags) cs
            else .cons (.element nm attrs (removeTagsF (a :: tags) ch)) (removeTagsF (a :: tags) cs))
          rw [if_pos hm']
        · have hm' : nm ∉ a :: tags := by
            intro hc
            rcases List.mem_cons.mp hc with h1 | h1
            · exact ha h1
            · exact hm h1
          show (if nm ∈ tags then removeTagsF tags (removeTagF a cs)
            else .cons (.element nm attrs (removeTagsF tags (removeTagF a ch)))
              (removeTagsF tags (removeTagF a cs))) = _
          rw [if_neg hm, removeTagsF_removeTagF a tags ch, removeTagsF_removeTagF a tags cs]
          show _ = (if nm ∈ a :: tags then removeTagsF (a :: tags) cs
            else .cons (.element nm attrs (removeTagsF (a :: tags) ch)) (removeTagsF (a :: tags) cs))
          rw [if_neg hm']
termination_by structural f => f
end

/-- Helper: the sequential per-tag `find_all` + `decompose` loop computes
the simultaneous removal of the whole tag set. -/
theorem foldl_removeTag_eq_removeTags (l : List String) :
    ∀ n : HNode, l.foldl (fun t tag => removeTag tag t) n = removeTags l n := by
  induction l with
  | nil => intro n; exact (removeTags_nil n).symm
  | cons a rest ih =>
    intro n
    rw [List.foldl_cons]
    rw [ih (removeTag a n)]
    exact removeTags_removeTag a rest n

/-- C8: with the main-content-only flag false, the sanitizer's output is
exactly the serialized tree with only the unconditional unsafe tags
(`script`, `style`, `noscript`, `meta`, `head`) plus the caller's
exclusion tags removed — every other node survives, as `removeTags`
keeps every element whose name is outside that set together with its
attributes — and the output is independent of both the boilerplate
catalog of extra removal selectors and the selector-removal collaborator,
which are never consulted. -/
theorem c8_sanitizer_false_flag (selA selB : String → HNode → HNode)
    (soup : HNode) (excl extraA extraB : List String) :
    remove_unwanted_elements selA soup excl false extraA =
      decode_contents
        (removeTags (["script", "style", "noscript", "meta", "head"] ++ excl) soup)
    ∧ remove_unwanted_elements selA soup excl false extraA =
      remove_unwanted_elements selB soup excl false extraB := by
  have h : ∀ (sel : String → HNode → HNode) (extra : List String),
      remove_unwanted_elements sel soup excl false extra =
        decode_contents
          (removeTags (["script", "style", "noscript", "meta", "head"] ++ excl) soup) := by
    intro sel extra
    unfold remove_unwanted_elements
    rw [foldl_removeTag_eq_removeTags]
    simp
  exact ⟨h selA extraA, (h selA extraA).trans (h selB extraB).symm⟩

/-- C8 witness: the characterization at a concrete tree, with the
boilerplate catalog supplied and a selector collaborator that would
remove everything if it were consulted. -/
theorem c8_sanitizer_false_flag_witness :
    remove_unwanted_elements idSelect treeC1 [] false exclude_non_main_tags =
      decode_contents
        (removeTags (["script", "style", "noscript", "meta", "head"] ++ []) treeC1)
    ∧ remove_unwanted_elements idSelect treeC1 [] false exclude_non_main_tags =
      remove_unwanted_elements (fun _ _ => .element "[document]" [] .nil) treeC1 [] false [] :=
  c8_sanitizer_false_flag idSelect (fun _ _ => .element "[document]" [] .nil)
    treeC1 [] exclude_non_main_tags []


/-- Helper: the stage loop is compositional — running `A ++ B` runs `A`,
then `B` from the document `A` produced, concatenating the error logs (an
uncaught error, i.e. a missing `rawHtml` key, aborts as it would in
either half). -/
theorem executeTransformers_append (parse : String → HNode) :
    ∀ (A B : List Stage) (doc : Doc),
      executeTransformers parse (A ++ B) doc =
        execSeq (executeTransformers parse A doc) (executeTransformers parse B) := by
  intro A
  induction A with
  | nil =>
    intro B doc
    show executeTransformers parse B doc = _
    cases hb : executeTransformers parse B doc with
    | error e => simp [execSeq, executeTransformers, hb]
    | ok p =>
      obtain ⟨d', l'⟩ := p
      simp [execSeq, executeTransformers, hb]
  | cons s A' ih =>
    intro B doc
    obtain ⟨rawO, html0, fm, md, nt, mp, mh, mm, ml⟩ := doc
    cases rawO with
    | none =>
      rw [List.cons_append]
      simp only [executeTransformers]
      rfl
    | some raw =>
      rw [List.cons_append]
      simp only [executeTransformers]
      cases hat : (if raw = "" then
          (.error "rawHtml is undefined or empty. Transformation cannot proceed." :
            Except String Doc)
        else s.run (parse raw)
          { rawHtml := some raw, html := some raw, full_markdown := fm, metadata := md,
            node_tree := nt, mc_path := mp, mc_html := mh, mc_markdown := mm,
            mc_links := ml }) with
      | ok doc'' => exact ih B doc''
      | error e =>
        rw [ih B ⟨some raw, some raw, fm, md, nt, mp, mh, mm, ml⟩]
        cases ha : executeTransformers parse A'
            ⟨some raw, some raw, fm, md, nt, mp, mh, mm, ml⟩ with
        | error e2 => rfl
        | ok p =>
          obtain ⟨d, logs⟩ := p
          cases hbb : executeTransformers parse B d with
          | error e2 => simp [execSeq, hbb]
          | ok q =>
            obtain ⟨d', logs'⟩ := q
            simp [execSeq, hbb]

/-- C9: stage failures are isolated.  The stage loop is compositional
over the stage list, and a stage that raises at its input contributes
exactly one log entry — `Error in transformer {name}: {cause}` — leaves
the document exactly as the loop preamble produced it (its output field
untouched), and the remaining stages run from that same document, as if
the failing stage were absent; no stage failure aborts the run. -/
theorem c9_stage_failure_isolated (parse : String → HNode) :
    (∀ (A B : List Stage) (doc : Doc),
      executeTransformers parse (A ++ B) doc =
        execSeq (executeTransformers parse A doc) (executeTransformers parse B))
    ∧ (∀ (f : Stage) (B : List Stage) (d : Doc) (raw e : String),
        d.rawHtml = some raw → raw ≠ "" →
        f.run (parse raw) { d with html := some raw } = .error e →
        executeTransformers parse (f :: B) d =
          execSeq (.ok ({ d with html := some raw },
              ["Error in transformer " ++ f.name ++ ": " ++ e]))
            (executeTransformers parse B)) := by
  refine ⟨executeTransformers_append parse, ?_⟩
  intro f B d raw e hraw hne hf
  obtain ⟨rawO, html0, fm, md, nt, mp, mh, mm, ml⟩ := d
  obtain rfl : rawO = some raw := hraw
  simp only [executeTransformers]
  rw [if_neg hne]
  rw [show f.run (parse raw)
      ⟨some raw, some raw, fm, md, nt, mp, mh, mm, ml⟩ = .error e from hf]
  cases hb : executeTransformers parse B
      ⟨some raw, some raw, fm, md, nt, mp, mh, mm, ml⟩ with
  | error e2 => simp [execSeq, hb]
  | ok q =>
    obtain ⟨d', logs'⟩ := q
    simp [execSeq, hb]

/-- C9 witness: a concrete two-stage run in which the first stage always
raises: the pipeline logs the stage name and cause, and the second stage
still executes on the unchanged document. -/
theorem c9_stage_failure_isolated_witness :
    executeTransformers parseC1 [stageBoom, stageSet] { rawHtml := some "x" } =
      .ok ({ rawHtml := some "x", html := some "x", full_markdown := some "md" },
        ["Error in transformer boom: kaboom"]) := by
  have h := (c9_stage_failure_isolated parseC1).2 stageBoom [stageSet]
    { rawHtml := some "x" } "x" "kaboom" rfl (by decide) rfl
  rw [h]
  rfl
